import Mathlib

/-!
Verification development for the zyde assembler and virtual machine.

The Rust sources embedded here are:
* `src/ir.rs` — the line parser (`parse_ir`), control-flow lowering
  (`lower_control_flow`) and label resolver (`assemble`);
* `src/vm.rs` — the register-file virtual machine (`VM`);
* `src/instruction.rs` / `src/number.rs` — the instruction set and the
  generic numeric capability (`Number` trait).

Rust `panic!` calls are modelled as `Except.error` carrying the exact
message text.  `Vec` becomes `List`, `HashMap` becomes an association
list whose most recent insertion shadows older bindings (the observable
behaviour of `HashMap::insert`/`get`).  The I/O side effect of `PRINT`
is dropped; everything else is state-passing.
-/

namespace Zyde

/-- The symbolic IR instruction set, translated from `enum IR<T>` in
`src/ir.rs`.  The payload of `Push` is the generic numeric value. -/
inductive IR (V : Type) where
  | Push (value : V)
  | Add
  | Subtract
  | Multiply
  | Divide
  | Print
  | Jump (label : String)
  | Call (label : String)
  | ConditionalJump (label : String)
  | Label (label : String)
  | Return
  | Store (var : String)
  | Load (var : String)
  | Equal
  | LessThan
  | GreaterThan
  | Dup
  | Swap
  | Pop
  | If
  | Else
  | EndIf
  | While
  | EndWhile
  | Do
  | EndDo
  | Not
  | Halt
  deriving DecidableEq, Repr

/-- True exactly on `IR.Label`, mirroring the `if let IR::Label(..)`
tests in `assemble` (`src/ir.rs`). -/
def isLabel {V : Type} : IR V → Bool
  | .Label _ => true
  | _ => false

/-- True exactly on the structured control-flow markers that
`lower_control_flow` must eliminate. -/
def isStructured {V : Type} : IR V → Bool
  | .If | .Else | .EndIf | .While | .EndWhile | .Do | .EndDo => true
  | _ => false

/-- Association-list lookup; first (most recently inserted) binding
wins, modelling `HashMap::get` after `HashMap::insert`. -/
def alookup {β : Type} (k : String) : List (String × β) → Option β
  | [] => none
  | (k2, v) :: rest => if k2 = k then some v else alookup k rest

/-! ## Line parser (`parse_ir`, src/ir.rs lines 42-151)

The `str` methods the parser uses are given character-level models
(over `String.data`) so that every definition evaluates: `trim` and
`is_whitespace` are modelled with `Char.isWhitespace` and
`to_uppercase` with `Char.toUpper` (ASCII case mapping; the mnemonics
and the comment delimiter are all ASCII, so this agrees with Rust on
every line that parses). -/

/-- Model of `str::trim`: drop whitespace from both ends. -/
def trimStr (s : String) : String :=
  ⟨((s.data.dropWhile Char.isWhitespace).reverse.dropWhile Char.isWhitespace).reverse⟩

/-- Model of `str::to_uppercase`. -/
def upper (s : String) : String :=
  ⟨s.data.map Char.toUpper⟩

/-- Comment stripping and trimming of one physical line:
`line.split(';').next().unwrap().trim()` — everything before the first
semicolon, trimmed. -/
def stripLine (line : String) : String :=
  trimStr ⟨line.data.takeWhile (fun c => c ≠ ';')⟩

/-- Model of `str::split_whitespace`: maximal runs of non-whitespace
characters. -/
def tokenize (line : String) : List String :=
  ((List.splitOnP Char.isWhitespace line.data).filter (fun t => t ≠ [])).map
    (fun t => ⟨t⟩)

/-- The text of the `panic!` messages: `"L{lineno+1}: <msg>"`. -/
def errMsg (lineno : Nat) (msg : String) : String :=
  "L" ++ toString (lineno + 1) ++ ": " ++ msg

/-- Model of `i32::from_str_radix(s, 10)`: an optional sign followed by
at least one decimal digit, rejected on overflow of `i32`. -/
def parseI32 (s : String) : Option Int :=
  let cs := s.data
  let neg : Bool := cs.head? = some '-'
  let digits : List Char := if cs.head? = some '-' ∨ cs.head? = some '+' then cs.tail else cs
  if digits.length = 0 then none
  else if digits.all Char.isDigit then
    let n : Nat := digits.foldl (fun a c => a * 10 + (c.toNat - 48)) 0
    let v : Int := if neg then -(n : Int) else (n : Int)
    if -2147483648 ≤ v ∧ v ≤ 2147483647 then some v else none
  else none

/-- Mnemonic dispatch on the already-uppercased first token `u`, with
the remaining tokens in `args` (so Rust's `parts.len() != 2` becomes
`args.length ≠ 1`).  Translated branch by branch from the `match` in
`parse_ir`. -/
def dispatchU (lineno : Nat) (u : String) (args : List String) :
    Except String (Option (IR Int)) :=
  if u = "PUSH" then
    if args.length ≠ 1 then .error (errMsg lineno "PUSH requires one operand")
    else
      match parseI32 (args.headD "") with
      | some n => .ok (some (.Push n))
      | none => .error (errMsg lineno "invalid number for PUSH")
  else if u = "ADD" then .ok (some .Add)
  else if u = "SUBTRACT" then .ok (some .Subtract)
  else if u = "MULTIPLY" then .ok (some .Multiply)
  else if u = "DIVIDE" then .ok (some .Divide)
  else if u = "PRINT" then .ok (some .Print)
  else if u = "JUMP" then
    if args.length ≠ 1 then .error (errMsg lineno "JUMP requires one operand")
    else .ok (some (.Jump (args.headD "")))
  else if u = "CALL" then
    if args.length ≠ 1 then .error (errMsg lineno "CALL requires one operand")
    else .ok (some (.Call (args.headD "")))
  else if u = "CJUMP" then
    if args.length ≠ 1 then .error (errMsg lineno "CJUMP requires one operand")
    else .ok (some (.ConditionalJump (args.headD "")))
  else if u = "RETURN" then .ok (some .Return)
  else if u = "HALT" then .ok (some .Halt)
  else if u = "STORE" then
    if args.length ≠ 1 then .error (errMsg lineno "STORE requires one operand")
    else .ok (some (.Store (args.headD "")))
  else if u = "LOAD" then
    if args.length ≠ 1 then .error (errMsg lineno "LOAD requires one operand")
    else .ok (some (.Load (args.headD "")))
  else if u = "EQUAL" then .ok (some .Equal)
  else if u = "LT" then .ok (some .LessThan)
  else if u = "GT" then .ok (some .GreaterThan)
  else if u = "DUP" then .ok (some .Dup)
  else if u = "SWAP" then .ok (some .Swap)
  else if u = "POP" then .ok (some .Pop)
  else if u = "LABEL" then
    if args.length ≠ 1 then .error (errMsg lineno "LABEL requires one operand")
    else .ok (some (.Label (args.headD "")))
  else if u = "IF" then .ok (some .If)
  else if u = "ELSE" then .ok (some .Else)
  else if u = "ENDIF" then .ok (some .EndIf)
  else if u = "WHILE" then .ok (some .While)
  else if u = "ENDWHILE" then .ok (some .EndWhile)
  else if u = "DO" then .ok (some .Do)
  else if u = "ENDDO" then .ok (some .EndDo)
  else if u = "NOT" then .ok (some .Not)
  else .error (errMsg lineno ("unknown instruction '" ++ u ++ "'"))

/-- Dispatch on the token list of one line; the first token is matched
case-insensitively via `to_uppercase`.  `ok none` is Rust's `continue`. -/
def parseTokens (lineno : Nat) : List String → Except String (Option (IR Int))
  | [] => .ok none
  | head :: args => dispatchU lineno (upper head) args

/-- Processing of one physical line of `parse_ir` (0-based `lineno`,
messages use `lineno + 1`). -/
def parseLine (lineno : Nat) (line : String) : Except String (Option (IR Int)) :=
  let l := stripLine line
  if l = "" then .ok none
  else parseTokens lineno (tokenize l)

/-- The accumulator loop of `parse_ir`: instructions are appended in
line order and the first `panic!` aborts the whole parse. -/
def parseGo : Nat → List String → List (IR Int) → Except String (List (IR Int))
  | _, [], acc => .ok acc
  | lineno, l :: rest, acc =>
    match parseLine lineno l with
    | .error e => .error e
    | .ok none => parseGo (lineno + 1) rest acc
    | .ok (some i) => parseGo (lineno + 1) rest (acc ++ [i])

/-- `parse_ir` from `src/ir.rs`, over the list of physical lines of the
source text (Rust's `input.lines()` supplies that list). -/
def parse_ir (lines : List String) : Except String (List (IR Int)) :=
  parseGo 0 lines []

/-- First parse error over the enumerated lines starting at `lineno`
(spec-side view: each line is judged independently; the earliest
malformed line decides the failure). -/
def firstErrFrom : Nat → List String → Option String
  | _, [] => none
  | lineno, l :: rest =>
    match parseLine lineno l with
    | .error e => some e
    | .ok _ => firstErrFrom (lineno + 1) rest

/-- Instructions contributed by each line starting at `lineno`
(spec-side view: skipped or malformed lines contribute nothing). -/
def outputsFrom : Nat → List String → List (IR Int)
  | _, [] => []
  | lineno, l :: rest =>
    match parseLine lineno l with
    | .ok (some i) => i :: outputsFrom (lineno + 1) rest
    | _ => outputsFrom (lineno + 1) rest

/-- Spec-side description of the parser, following the sentence "on any
malformed line fails with an error identifying the 1-based line number,
appending no instruction for that line": report the first per-line
error if any, otherwise the per-line outputs in order. -/
def parse_ir_spec (lines : List String) : Except String (List (IR Int)) :=
  match firstErrFrom 0 lines with
  | some e => .error e
  | none => .ok (outputsFrom 0 lines)

/-! ## Control-flow lowering (`lower_control_flow`, src/ir.rs lines 225-311)

The control stack holds `(tag, patch_index, loop_label)` triples exactly
as the Rust `Vec<(&str, usize, String)>` does; the head of the list is
the top of the stack.  Synthesised labels are `"L" ++ output.len()`.

The `EndIf` arm reproduces the source faithfully, including the fact
that the `else if let` branch calls `control_stack.pop()` a second
time, so when the first popped entry is not tagged `"endif"` the branch
inspects the entry *below* it. -/

/-- The loop body of `lower_control_flow`: `out` is the `output` vector
accumulated so far, `stk` the control stack (head = top). -/
def lowerGo {V : Type} :
    List (IR V) → List (IR V) → List (String × Nat × String) →
    Except String (List (IR V))
  | [], out, stk =>
    if stk.isEmpty then .ok out else .error "Mismatched control flow constructs"
  | .If :: rest, out, stk =>
    lowerGo rest (out ++ [.ConditionalJump ""]) (("if", out.length, "") :: stk)
  | .Else :: rest, out, stk =>
    match stk with
    | (tag, ifIndex, _) :: stk1 =>
      if tag = "if" then
        lowerGo rest
          ((out.set ifIndex (.ConditionalJump ("L" ++ toString out.length))) ++
            [.Jump "", .Label ("L" ++ toString out.length)])
          (("endif", out.length, "") :: stk1)
      else .error "ELSE without matching IF"
    | [] => .error "ELSE without matching IF"
  | .EndIf :: rest, out, stk =>
    match stk with
    | (tag1, jumpIndex, _) :: stk1 =>
      if tag1 = "endif" then
        lowerGo rest
          ((out.set jumpIndex (.Jump ("L" ++ toString out.length))) ++
            [.Label ("L" ++ toString out.length)])
          stk1
      else
        match stk1 with
        | (tag2, ifIndex, _) :: stk2 =>
          if tag2 = "if" then
            lowerGo rest
              ((out.set ifIndex (.ConditionalJump ("L" ++ toString out.length))) ++
                [.Label ("L" ++ toString out.length)])
              stk2
          else .error "ENDIF without matching IF/ELSE"
        | [] => .error "ENDIF without matching IF/ELSE"
    | [] => .error "ENDIF without matching IF/ELSE"
  | .While :: rest, out, stk =>
    lowerGo rest
      (out ++ [.Label ("L" ++ toString out.length), .ConditionalJump ""])
      (("while", out.length + 1, "L" ++ toString out.length) :: stk)
  | .EndWhile :: rest, out, stk =>
    match stk with
    | (tag, condJumpIndex, loopStart) :: stk1 =>
      if tag = "while" then
        lowerGo rest
          (((out ++ [IR.Jump loopStart]).set condJumpIndex
              (IR.ConditionalJump ("L" ++ toString (out.length + 1)))) ++
            [IR.Label ("L" ++ toString (out.length + 1))])
          stk1
      else .error "ENDWHILE without matching WHILE"
    | [] => .error "ENDWHILE without matching WHILE"
  | .Do :: rest, out, stk =>
    lowerGo rest (out ++ [.Label ("L" ++ toString out.length)])
      (("do", out.length + 1, "L" ++ toString out.length) :: stk)
  | .EndDo :: rest, out, stk =>
    match stk with
    | (tag, _, loopStart) :: stk1 =>
      if tag = "do" then
        lowerGo rest
          (out ++ [.ConditionalJump ("L" ++ toString out.length), .Jump loopStart,
            .Label ("L" ++ toString out.length)])
          stk1
      else .error "ENDDO without matching DO"
    | [] => .error "ENDDO without matching DO"
  | i :: rest, out, stk => lowerGo rest (out ++ [i]) stk

/-- `lower_control_flow` from `src/ir.rs`. -/
def lower_control_flow {V : Type} (ir : List (IR V)) : Except String (List (IR V)) :=
  lowerGo ir [] []

/-! ## Label resolver (`assemble`, src/ir.rs lines 153-223)

`assemble` targets the stack-flavoured `Instruction` constructors it
applies (`Instruction::Push`, tuple-style `Jump`, ...).  The checked-in
`src/instruction.rs` holds a register-file variant of that enum
instead, so the stack-flavoured constructors below are reconstructed
from their use sites in `assemble` (each constructor appears applied
there, which fixes its arity and payload). -/

/-- Target instructions of `assemble`, one constructor per
`Instruction::…` application in `src/ir.rs`. -/
inductive StackInstruction (V : Type) where
  | Push (value : V)
  | Add
  | Subtract
  | Multiply
  | Divide
  | Print
  | Jump (target : Nat)
  | Call (target : Nat)
  | ConditionalJump (target : Nat)
  | Return
  | Halt
  | Store (var : String)
  | Load (var : String)
  | Equal
  | LessThan
  | GreaterThan
  | Dup
  | Swap
  | Pop
  | Not
  deriving DecidableEq, Repr

/-- Number of non-label entries of a lowered sequence (the amount by
which `curr_index` advances while scanning it). -/
def countNonLabel {V : Type} (l : List (IR V)) : Nat :=
  (l.filter (fun i => !(isLabel i))).length

/-- First pass of `assemble`: walk the lowered sequence, binding each
label name to `curr_index` (duplicates silently overwrite since the
newer binding is consed on top and `alookup` finds it first). -/
def labelMapGo {V : Type} :
    List (IR V) → Nat → List (String × Nat) → List (String × Nat)
  | [], _, m => m
  | .Label name :: rest, currIndex, m => labelMapGo rest currIndex ((name, currIndex) :: m)
  | _ :: rest, currIndex, m => labelMapGo rest (currIndex + 1) m

/-- The completed label map of the first pass of `assemble`. -/
def labelMap {V : Type} (seq : List (IR V)) : List (String × Nat) :=
  labelMapGo seq 0 []

/-- Second pass of `assemble`, per instruction: labels are dropped
(`ok none`), label-addressed jumps and calls are rewritten through the
map (a missing name is the `undefined label` panic), leftover
structured markers are the internal-consistency panic, and everything
else maps to its final constructor unchanged. -/
def resolveOne {V : Type} (m : List (String × Nat)) :
    IR V → Except String (Option (StackInstruction V))
  | .Push v => .ok (some (.Push v))
  | .Add => .ok (some .Add)
  | .Subtract => .ok (some .Subtract)
  | .Multiply => .ok (some .Multiply)
  | .Divide => .ok (some .Divide)
  | .Print => .ok (some .Print)
  | .Jump label =>
    match alookup label m with
    | some target => .ok (some (.Jump target))
    | none => .error ("undefined label: " ++ label)
  | .Call label =>
    match alookup label m with
    | some target => .ok (some (.Call target))
    | none => .error ("undefined label: " ++ label)
  | .ConditionalJump label =>
    match alookup label m with
    | some target => .ok (some (.ConditionalJump target))
    | none => .error ("undefined label: " ++ label)
  | .Return => .ok (some .Return)
  | .Halt => .ok (some .Halt)
  | .Store var => .ok (some (.Store var))
  | .Load var => .ok (some (.Load var))
  | .Equal => .ok (some .Equal)
  | .LessThan => .ok (some .LessThan)
  | .GreaterThan => .ok (some .GreaterThan)
  | .Dup => .ok (some .Dup)
  | .Swap => .ok (some .Swap)
  | .Pop => .ok (some .Pop)
  | .Not => .ok (some .Not)
  | .Label _ => .ok none
  | .If => .error "Unlowered control flow construct found"
  | .Else => .error "Unlowered control flow construct found"
  | .EndIf => .error "Unlowered control flow construct found"
  | .While => .error "Unlowered control flow construct found"
  | .EndWhile => .error "Unlowered control flow construct found"
  | .Do => .error "Unlowered control flow construct found"
  | .EndDo => .error "Unlowered control flow construct found"

/-- Second pass of `assemble` over the whole sequence; the first
failing entry aborts, otherwise the resolved instructions are kept in
order and label declarations disappear. -/
def resolveGo {V : Type} (m : List (String × Nat)) :
    List (IR V) → Except String (List (StackInstruction V))
  | [] => .ok []
  | i :: rest =>
    match resolveOne m i with
    | .error e => .error e
    | .ok none => resolveGo m rest
    | .ok (some si) =>
      match resolveGo m rest with
      | .error e => .error e
      | .ok out => .ok (si :: out)

/-- Both passes of the label resolver of `assemble`, applied to an
already lowered sequence. -/
def assembleLowered {V : Type} (seq : List (IR V)) :
    Except String (List (StackInstruction V)) :=
  resolveGo (labelMap seq) seq

/-- `assemble` from `src/ir.rs`: parse, lower, then resolve labels. -/
def assemble (lines : List String) : Except String (List (StackInstruction Int)) :=
  match parse_ir lines with
  | .error e => .error e
  | .ok ir =>
    match lower_control_flow ir with
    | .error e => .error e
    | .ok lowered => assembleLowered lowered

/-! ## Register virtual machine (`src/vm.rs`)

`VM<T>` is generic over the `Number` capability (`src/number.rs`:
`Copy + Add + Sub + Mul + Div + PartialEq + From<i32>`, plus the
`PartialOrd` bound on the `impl` block).  The capability is bundled as
an explicit structure of operations.  Each helper method returns the
state as left by the Rust method together with the optional error, so
that an error case records exactly which mutations had already
happened (in the source, every bounds check precedes every mutation). -/

/-- The operations the VM requires of its value type: the arithmetic
operators, `PartialEq` (`beq`), `PartialOrd` (`blt`/`bgt`) and
`From<i32>` (`fromInt`). -/
structure NumCap (V : Type) where
  add : V → V → V
  sub : V → V → V
  mul : V → V → V
  div : V → V → V
  beq : V → V → Bool
  blt : V → V → Bool
  bgt : V → V → Bool
  fromInt : Int → V

/-- `enum VmError` from `src/vm.rs`. -/
inductive VmError where
  | RegisterOutOfBounds (msg : String)
  | ProgramCounterOutOfBounds
  | CallStackEmpty
  deriving DecidableEq, Repr

/-- `struct Frame` from `src/vm.rs`. -/
structure Frame where
  return_address : Nat
  deriving DecidableEq, Repr

/-- The instruction set interpreted by `VM::execute_instruction` in
`src/vm.rs` (one constructor per `match` arm there; the checked-in
`src/instruction.rs` additionally declares a `Mov` variant the
interpreter has no arm for — the two files come from different
revisions — so it is not part of the executable set). -/
inductive Instruction (V : Type) where
  | LoadImm (dest : Nat) (value : V)
  | Add (dest src1 src2 : Nat)
  | Sub (dest src1 src2 : Nat)
  | Mul (dest src1 src2 : Nat)
  | Div (dest src1 src2 : Nat)
  | Print (src : Nat)
  | Jump (addr : Nat)
  | Call (addr : Nat)
  | ConditionalJump (cond target : Nat)
  | Return
  | Store (src : Nat) (var : String)
  | Load (dest : Nat) (var : String)
  | Equal (dest src1 src2 : Nat)
  | LessThan (dest src1 src2 : Nat)
  | GreaterThan (dest src1 src2 : Nat)
  | Not (dest src : Nat)
  | Halt
  deriving DecidableEq, Repr

/-- The mutable state of `struct VM<T>`. -/
structure VM (V : Type) where
  pc : Nat
  registers : List V
  program : List (Instruction V)
  call_stack : List Frame
  vars : List (String × V)
  deriving DecidableEq, Repr

/-- `VM::get_register`: a pure read that fails past the register file. -/
def get_register {V : Type} (s : VM V) (index : Nat) : Except VmError V :=
  match s.registers[index]? with
  | some v => .ok v
  | none => .error (.RegisterOutOfBounds ("invalid register index " ++ toString index))

/-- `VM::set_register`: writes in place, or fails leaving the state
untouched. -/
def set_register {V : Type} (s : VM V) (index : Nat) (value : V) :
    VM V × Option VmError :=
  if index < s.registers.length then
    ({ s with registers := s.registers.set index value }, none)
  else
    (s, some (.RegisterOutOfBounds ("invalid register index " ++ toString index)))

/-- `VM::jump`: the bounds check precedes the `pc` write. -/
def jump {V : Type} (s : VM V) (addr : Nat) : VM V × Option VmError :=
  if s.program.length ≤ addr then (s, some .ProgramCounterOutOfBounds)
  else ({ s with pc := addr }, none)

/-- `VM::call`: the bounds check precedes both the frame push and the
`pc` write; the pushed frame holds the current (already incremented)
`pc`. -/
def call {V : Type} (s : VM V) (addr : Nat) : VM V × Option VmError :=
  if s.program.length ≤ addr then (s, some .ProgramCounterOutOfBounds)
  else ({ s with call_stack := ⟨s.pc⟩ :: s.call_stack, pc := addr }, none)

/-- `VM::ret`: pops the top frame into `pc`, or fails on an empty call
stack. -/
def ret {V : Type} (s : VM V) : VM V × Option VmError :=
  match s.call_stack with
  | [] => (s, some .CallStackEmpty)
  | f :: rest => ({ s with pc := f.return_address, call_stack := rest }, none)

/-- Shared shape of the three-register arms (`Add`/`Sub`/`Mul`/`Div`/
`Equal`/`LessThan`/`GreaterThan`): read both sources, then write the
destination. -/
def binopR {V : Type} (op : V → V → V) (s : VM V) (dest src1 src2 : Nat) :
    VM V × Option VmError :=
  match get_register s src1 with
  | .error e => (s, some e)
  | .ok v1 =>
    match get_register s src2 with
    | .error e => (s, some e)
    | .ok v2 => set_register s dest (op v1 v2)

/-- `VM::execute_instruction`, arm by arm.  The `println!` of `Print`
is dropped; `Store` inserts by consing the new binding (shadowing any
older one, as `HashMap::insert` overwrites);  the conditional jump is
taken when the tested register compares equal to `T::from(0)`. -/
def execute_instruction {V : Type} (cap : NumCap V) (instr : Instruction V)
    (s : VM V) : VM V × Option VmError :=
  match instr with
  | .LoadImm dest value => set_register s dest value
  | .Add dest src1 src2 => binopR cap.add s dest src1 src2
  | .Sub dest src1 src2 => binopR cap.sub s dest src1 src2
  | .Mul dest src1 src2 => binopR cap.mul s dest src1 src2
  | .Div dest src1 src2 => binopR cap.div s dest src1 src2
  | .Print src =>
    match get_register s src with
    | .error e => (s, some e)
    | .ok _ => (s, none)
  | .Jump addr => jump s addr
  | .Call addr => call s addr
  | .ConditionalJump cond target =>
    match get_register s cond with
    | .error e => (s, some e)
    | .ok condition =>
      if cap.beq condition (cap.fromInt 0) then jump s target else (s, none)
  | .Return => ret s
  | .Store src var =>
    match get_register s src with
    | .error e => (s, some e)
    | .ok v => ({ s with vars := (var, v) :: s.vars }, none)
  | .Load dest var =>
    match alookup var s.vars with
    | none => (s, some (.RegisterOutOfBounds ("variable '" ++ var ++ "' not found")))
    | some v => set_register s dest v
  | .Equal dest src1 src2 =>
    binopR (fun v1 v2 => if cap.beq v1 v2 then cap.fromInt 1 else cap.fromInt 0)
      s dest src1 src2
  | .LessThan dest src1 src2 =>
    binopR (fun v1 v2 => if cap.blt v1 v2 then cap.fromInt 1 else cap.fromInt 0)
      s dest src1 src2
  | .GreaterThan dest src1 src2 =>
    binopR (fun v1 v2 => if cap.bgt v1 v2 then cap.fromInt 1 else cap.fromInt 0)
      s dest src1 src2
  | .Not dest src =>
    match get_register s src with
    | .error e => (s, some e)
    | .ok v =>
      set_register s dest
        (if cap.beq v (cap.fromInt 0) then cap.fromInt 1 else cap.fromInt 0)
  | .Halt => ({ s with pc := s.program.length }, none)

/-- Result of a bounded run of the dispatch loop. -/
inductive RunResult (V : Type) where
  | ok (s : VM V)
  | vmErr (e : VmError) (s : VM V)
  | outOfFuel (s : VM V)
  deriving DecidableEq, Repr

/-- `VM::run` with explicit fuel (the Rust loop has none; `outOfFuel`
marks runs the bound cut short).  One iteration fetches the instruction
at `pc`, increments `pc`, then executes. -/
def runFuel {V : Type} (cap : NumCap V) : Nat → VM V → RunResult V
  | 0, s => if s.pc < s.program.length then .outOfFuel s else .ok s
  | fuel + 1, s =>
    if h : s.pc < s.program.length then
      match execute_instruction cap (s.program[s.pc]) { s with pc := s.pc + 1 } with
      | (s2, none) => runFuel cap fuel s2
      | (s2, some e) => .vmErr e s2
    else .ok s

/-- `VM::new`: zero-filled register file, `pc = 0`, empty call stack
and variable map. -/
def VM.new {V : Type} (cap : NumCap V) (program : List (Instruction V))
    (num_registers : Nat) : VM V :=
  { pc := 0
    registers := List.replicate num_registers (cap.fromInt 0)
    program := program
    call_stack := []
    vars := [] }

/-- The pc/call-stack safety invariant of claim C10: the program
counter and every stored return address stay within
`[0, program.length]`. -/
def goodState {V : Type} (s : VM V) : Prop :=
  s.pc ≤ s.program.length ∧
    ∀ f ∈ s.call_stack, f.return_address ≤ s.program.length

/-- The `i32` instance of the numeric capability (`impl Number for i32`). -/
def intCap : NumCap Int :=
  { add := fun a b => a + b
    sub := fun a b => a - b
    mul := fun a b => a * b
    div := fun a b => a / b
    beq := fun a b => a == b
    blt := fun a b => decide (a < b)
    bgt := fun a b => decide (a > b)
    fromInt := fun n => n }

/-! ## Theorems: line parser -/

/-- The accumulator loop of `parse_ir` agrees with the line-local view:
the first malformed line's error is reported, otherwise the per-line
outputs are appended in order. -/
theorem parseGo_eq (ls : List String) : ∀ (n : Nat) (acc : List (IR Int)),
    parseGo n ls acc =
      match firstErrFrom n ls with
      | some e => .error e
      | none => .ok (acc ++ outputsFrom n ls) := by
  induction ls with
  | nil => intro n acc; simp [parseGo, firstErrFrom, outputsFrom]
  | cons l rest ih =>
    intro n acc
    simp only [parseGo, firstErrFrom, outputsFrom]
    cases h : parseLine n l with
    | error e => simp
    | ok o =>
      cases o with
      | none => simp [ih]
      | some i => simp [ih]

/-- Every error `dispatchU` can produce carries the 1-based line
number, i.e. has the shape `errMsg lineno m`. -/
theorem dispatchU_error_shape (lineno : Nat) (u : String) (args : List String)
    (e : String) (h : dispatchU lineno u args = .error e) : ∃ m, e = errMsg lineno m := by
  unfold dispatchU at h
  by_cases h0 : u = "PUSH"
  · rw [if_pos h0] at h
    by_cases ha0 : args.length ≠ 1
    · rw [if_pos ha0] at h
      exact ⟨_, (Except.error.inj h).symm⟩
    · rw [if_neg ha0] at h
      cases hp : parseI32 (args.headD "") with
      | none => rw [hp] at h; exact ⟨_, (Except.error.inj h).symm⟩
      | some k => rw [hp] at h; exact Except.noConfusion h
  · rw [if_neg h0] at h
    by_cases h1 : u = "ADD"
    · rw [if_pos h1] at h
      exact Except.noConfusion h
    · rw [if_neg h1] at h
      by_cases h2 : u = "SUBTRACT"
      · rw [if_pos h2] at h
        exact Except.noConfusion h
      · rw [if_neg h2] at h
        by_cases h3 : u = "MULTIPLY"
        · rw [if_pos h3] at h
          exact Except.noConfusion h
        · rw [if_neg h3] at h
          by_cases h4 : u = "DIVIDE"
          · rw [if_pos h4] at h
            exact Except.noConfusion h
          · rw [if_neg h4] at h
            by_cases h5 : u = "PRINT"
            · rw [if_pos h5] at h
              exact Except.noConfusion h
            · rw [if_neg h5] at h
              by_cases h6 : u = "JUMP"
              · rw [if_pos h6] at h
                by_cases ha6 : args.length ≠ 1
                · rw [if_pos ha6] at h
                  exact ⟨_, (Except.error.inj h).symm⟩
                · rw [if_neg ha6] at h
                  exact Except.noConfusion h
              · rw [if_neg h6] at h
                by_cases h7 : u = "CALL"
                · rw [if_pos h7] at h
                  by_cases ha7 : args.length ≠ 1
                  · rw [if_pos ha7] at h
                    exact ⟨_, (Except.error.inj h).symm⟩
                  · rw [if_neg ha7] at h
                    exact Except.noConfusion h
                · rw [if_neg h7] at h
                  by_cases h8 : u = "CJUMP"
                  · rw [if_pos h8] at h
                    by_cases ha8 : args.length ≠ 1
                    · rw [if_pos ha8] at h
                      exact ⟨_, (Except.error.inj h).symm⟩
                    · rw [if_neg ha8] at h
                      exact Except.noConfusion h
                  · rw [if_neg h8] at h
                    by_cases h9 : u = "RETURN"
                    · rw [if_pos h9] at h
                      exact Except.noConfusion h
                    · rw [if_neg h9] at h
                      by_cases h10 : u = "HALT"
                      · rw [if_pos h10] at h
                        exact Except.noConfusion h
                      · rw [if_neg h10] at h
                        by_cases h11 : u = "STORE"
                        · rw [if_pos h11] at h
                          by_cases ha11 : args.length ≠ 1
                          · rw [if_pos ha11] at h
                            exact ⟨_, (Except.error.inj h).symm⟩
                          · rw [if_neg ha11] at h
                            exact Except.noConfusion h
                        · rw [if_neg h11] at h
                          by_cases h12 : u = "LOAD"
                          · rw [if_pos h12] at h
                            by_cases ha12 : args.length ≠ 1
                            · rw [if_pos ha12] at h
                              exact ⟨_, (Except.error.inj h).symm⟩
                            · rw [if_neg ha12] at h
                              exact Except.noConfusion h
                          · rw [if_neg h12] at h
                            by_cases h13 : u = "EQUAL"
                            · rw [if_pos h13] at h
                              exact Except.noConfusion h
                            · rw [if_neg h13] at h
                              by_cases h14 : u = "LT"
                              · rw [if_pos h14] at h
                                exact Except.noConfusion h
                              · rw [if_neg h14] at h
                                by_cases h15 : u = "GT"
                                · rw [if_pos h15] at h
                                  exact Except.noConfusion h
                                · rw [if_neg h15] at h
                                  by_cases h16 : u = "DUP"
                                  · rw [if_pos h16] at h
                                    exact Except.noConfusion h
                                  · rw [if_neg h16] at h
                                    by_cases h17 : u = "SWAP"
                                    · rw [if_pos h17] at h
                                      exact Except.noConfusion h
                                    · rw [if_neg h17] at h
                                      by_cases h18 : u = "POP"
                                      · rw [if_pos h18] at h
                                        exact Except.noConfusion h
                                      · rw [if_neg h18] at h
                                        by_cases h19 : u = "LABEL"
                                        · rw [if_pos h19] at h
                                          by_cases ha19 : args.length ≠ 1
                                          · rw [if_pos ha19] at h
                                            exact ⟨_, (Except.error.inj h).symm⟩
                                          · rw [if_neg ha19] at h
                                            exact Except.noConfusion h
                                        · rw [if_neg h19] at h
                                          by_cases h20 : u = "IF"
                                          · rw [if_pos h20] at h
                                            exact Except.noConfusion h
                                          · rw [if_neg h20] at h
                                            by_cases h21 : u = "ELSE"
                                            · rw [if_pos h21] at h
                                              exact Except.noConfusion h
                                            · rw [if_neg h21] at h
                                              by_cases h22 : u = "ENDIF"
                                              · rw [if_pos h22] at h
                                                exact Except.noConfusion h
                                              · rw [if_neg h22] at h
                                                by_cases h23 : u = "WHILE"
                                                · rw [if_pos h23] at h
                                                  exact Except.noConfusion h
                                                · rw [if_neg h23] at h
                                                  by_cases h24 : u = "ENDWHILE"
                                                  · rw [if_pos h24] at h
                                                    exact Except.noConfusion h
                                                  · rw [if_neg h24] at h
                                                    by_cases h25 : u = "DO"
                                                    · rw [if_pos h25] at h
                                                      exact Except.noConfusion h
                                                    · rw [if_neg h25] at h
                                                      by_cases h26 : u = "ENDDO"
                                                      · rw [if_pos h26] at h
                                                        exact Except.noConfusion h
                                                      · rw [if_neg h26] at h
                                                        by_cases h27 : u = "NOT"
                                                        · rw [if_pos h27] at h
                                                          exact Except.noConfusion h
                                                        · rw [if_neg h27] at h
                                                          exact ⟨_, (Except.error.inj h).symm⟩

/-- Claim C9 (amended): the parser truncates each line at the first
semicolon, trims and tokenizes it, skips lines that become empty,
dispatches on the uppercased first token, and aborts eagerly on the
first malformed line with an error of shape `L<lineno+1>: …`,
appending no instruction.  Arity is only checked for the one-operand
mnemonics; the claim's "wrong operand arity fails" conjunct is false
for zero-operand mnemonics (see the counterexample). -/
theorem c9_parser_amended :
    (∀ ls, parse_ir ls = parse_ir_spec ls)
    ∧ (∀ (n : Nat) (l : String), stripLine l = "" → parseLine n l = .ok none)
    ∧ (∀ (n : Nat) (t1 t2 : String) (args : List String), upper t1 = upper t2 →
        parseTokens n (t1 :: args) = parseTokens n (t2 :: args))
    ∧ (∀ (n : Nat) (l e : String), parseLine n l = .error e → ∃ m, e = errMsg n m)
    ∧ (∀ n : Nat, parseTokens n ["PUSH"] = .error (errMsg n "PUSH requires one operand"))
    ∧ (∀ n : Nat, parseTokens n ["PUSH", "abc"] = .error (errMsg n "invalid number for PUSH"))
    ∧ (∀ n : Nat, parseTokens n ["FROB"] = .error (errMsg n "unknown instruction 'FROB'")) := by
  refine ⟨?_, ?_, ?_, ?_, ?_, ?_, ?_⟩
  · intro ls
    rw [parse_ir, parse_ir_spec, parseGo_eq]
    cases firstErrFrom 0 ls <;> simp
  · intro n l h
    simp [parseLine, h]
  · intro n t1 t2 args h
    simp [parseTokens, h]
  · intro n l e h
    rw [parseLine] at h
    split at h
    · exact Except.noConfusion h
    · cases htok : tokenize (stripLine l) with
      | nil => rw [htok] at h; exact Except.noConfusion h
      | cons head args => rw [htok] at h; exact dispatchU_error_shape _ _ _ _ h
  · intro n; rfl
  · intro n; rfl
  · intro n; rfl

/-- Claim C9, counterexample to the claim as stated: "ADD 9" has the
wrong operand arity for the zero-operand mnemonic `ADD` (§6 of the
spec), yet the parser accepts the line and appends an instruction. -/
theorem c9_counterexample : parse_ir ["ADD 9"] = .ok [IR.Add] := by rfl

/-- Claim C9, witness: the skip conjunct applied to a pure comment
line. -/
theorem c9_witness : parseLine 0 "  ; only a comment" = .ok none :=
  c9_parser_amended.2.1 0 "  ; only a comment" rfl

/-! ## Theorems: control-flow lowering -/

-- Elements of an appended run stay structured-free.
theorem structured_free_append {V : Type} {out new : List (IR V)}
    (hout : ∀ x ∈ out, isStructured x = false)
    (hnew : ∀ x ∈ new, isStructured x = false) :
    ∀ x ∈ out ++ new, isStructured x = false := by
  intro x hx
  rcases List.mem_append.1 hx with hx | hx
  exacts [hout x hx, hnew x hx]

-- Patching one position with a structured-free instruction preserves
-- structured-freedom.
theorem structured_free_set {V : Type} {out : List (IR V)} {idx : Nat} {v : IR V}
    (hout : ∀ x ∈ out, isStructured x = false) (hv : isStructured v = false) :
    ∀ x ∈ out.set idx v, isStructured x = false := by
  intro x hx
  rcases List.mem_or_eq_of_mem_set hx with hx | rfl
  exacts [hout x hx, hv]

-- Any successful run of the lowering loop keeps the accumulated output
-- free of structured markers: every instruction it appends or patches
-- in is a jump, conditional jump, label, or a pass-through
-- non-structured instruction.
theorem lowerGo_structured_free {V : Type} :
    ∀ (ir out : List (IR V)) (stk : List (String × Nat × String))
      (res : List (IR V)),
      lowerGo ir out stk = .ok res →
      (∀ x ∈ out, isStructured x = false) →
      ∀ x ∈ res, isStructured x = false := by
  intro ir
  induction ir with
  | nil =>
    intro out stk res h hout
    rw [lowerGo] at h
    split at h
    · cases h; exact hout
    · exact Except.noConfusion h
  | cons i rest ih =>
    intro out stk res h hout
    cases i <;> simp only [lowerGo] at h <;> repeat' split at h
    all_goals
      first
        | exact fun hne => IR.noConfusion hne
        | exact Except.noConfusion h
        | (refine ih _ _ _ h ?_
           intro x hx
           repeat' first
             | (rcases List.mem_append.1 hx with hx | hx)
             | (rcases List.mem_or_eq_of_mem_set hx with hx | rfl)
             | (rcases List.mem_cons.1 hx with rfl | hx)
           all_goals
             first
               | exact hout x hx
               | exact absurd hx (List.not_mem_nil x)
               | rfl)

/-- Claim C8 (amended): a successful lowering leaves no structured
construct in the output, and reaching the end of input with a
non-empty control stack always fails — but with the fixed, generic
message "Mismatched control flow constructs" that does not name the
unmatched kind. -/
theorem c8_lowering_amended :
    (∀ (V : Type) (ir out : List (IR V)), lower_control_flow ir = .ok out →
        ∀ x ∈ out, isStructured x = false)
    ∧ (∀ (V : Type) (out : List (IR V)) (stk : List (String × Nat × String)),
        stk ≠ [] →
        lowerGo [] out stk = .error "Mismatched control flow constructs") := by
  constructor
  · intro V ir out h
    exact lowerGo_structured_free ir [] [] out h (by intro x hx; cases hx)
  · intro V out stk hstk
    rcases stk with _ | ⟨f, stk1⟩
    · exact absurd rfl hstk
    · rfl

/-- Claim C8, counterexample to the claim as stated: the three
different unmatched kinds `IF`, `WHILE` and `DO` all produce the
identical error text, so the unbalanced-control-flow failure does not
name the unmatched kind. -/
theorem c8_counterexample :
    lower_control_flow ([IR.If] : List (IR Int)) =
        .error "Mismatched control flow constructs"
    ∧ lower_control_flow ([IR.While] : List (IR Int)) =
        .error "Mismatched control flow constructs"
    ∧ lower_control_flow ([IR.Do] : List (IR Int)) =
        .error "Mismatched control flow constructs" :=
  ⟨rfl, rfl, rfl⟩

/-- Claim C8, witness: a leftover `if` entry on the control stack at
end of input yields the generic failure. -/
theorem c8_witness :
    lowerGo ([] : List (IR Int)) [] [("if", 0, "")] =
      .error "Mismatched control flow constructs" :=
  c8_lowering_amended.2 Int [] [("if", 0, "")] (by simp)

/-- Claim C1: the `ENDIF` arm pops the control stack inside the first
`if let` and pops it *again* inside the `else if let`, so a plain
`IF … ENDIF` block with no `ELSE` (and nothing below it on the control
stack) is rejected with "ENDIF without matching IF/ELSE" instead of
being patched to the join point; with a second `IF` below it, the
second pop silently patches the outer `IF` (index 0) and leaves the
inner placeholder conditional-jump with an empty label. -/
theorem c1_endif_double_pop :
    lower_control_flow ([IR.If, IR.EndIf] : List (IR Int)) =
        .error "ENDIF without matching IF/ELSE"
    ∧ lower_control_flow ([IR.If, IR.If, IR.EndIf] : List (IR Int)) =
        .ok [IR.ConditionalJump "L2", IR.ConditionalJump "", IR.Label "L2"] :=
  ⟨rfl, rfl⟩

/-- Claim C7: the labels synthesised by lowering are `"L" ++ emission
index` with no reserved prefix, so a user-declared label of the same
shape collides.  Lowering `WHILE ENDWHILE LABEL L0` synthesises the
loop-head label "L0" while the input also declares the user label
"L0"; assembling the result lets the user's later declaration
overwrite the loop head, so the loop-back jump resolves to 2 instead
of 0. -/
theorem c7_label_collision :
    lower_control_flow ([IR.While, IR.EndWhile, IR.Label "L0"] : List (IR Int)) =
        .ok [IR.Label "L0", IR.ConditionalJump "L3", IR.Jump "L0",
          IR.Label "L3", IR.Label "L0"]
    ∧ alookup "L0"
        (labelMap ([IR.Label "L0", IR.ConditionalJump "L3", IR.Jump "L0",
          IR.Label "L3", IR.Label "L0"] : List (IR Int))) = some 2
    ∧ assembleLowered ([IR.Label "L0", IR.ConditionalJump "L3", IR.Jump "L0",
          IR.Label "L3", IR.Label "L0"] : List (IR Int)) =
        .ok [StackInstruction.ConditionalJump 2, StackInstruction.Jump 2] :=
  ⟨rfl, rfl, rfl⟩

/-! ## Theorems: label resolver -/

-- A label declaration contributes nothing to the non-label count.
theorem countNonLabel_cons_isLabel {V : Type} {i : IR V} (l : List (IR V))
    (h : isLabel i = true) : countNonLabel (i :: l) = countNonLabel l := by
  simp [countNonLabel, List.filter_cons, h]

-- A non-label instruction advances the non-label count by one.
theorem countNonLabel_cons_of_not {V : Type} {i : IR V} (l : List (IR V))
    (h : isLabel i = false) : countNonLabel (i :: l) = countNonLabel l + 1 := by
  simp [countNonLabel, List.filter_cons, h]

-- Scanning a segment that never declares `k` leaves `k`'s binding
-- untouched.
theorem labelMapGo_lookup_notmem {V : Type} (k : String) :
    ∀ (seq : List (IR V)) (ci : Nat) (m : List (String × Nat)),
      IR.Label k ∉ seq →
      alookup k (labelMapGo seq ci m) = alookup k m := by
  intro seq
  induction seq with
  | nil => intro ci m _; rfl
  | cons i rest ih =>
    intro ci m h
    rw [List.mem_cons, not_or] at h
    obtain ⟨h1, h2⟩ := h
    cases i
    case Label name =>
      have hne : name ≠ k := by
        intro hk
        exact h1 (by rw [hk])
      simp only [labelMapGo]
      rw [ih ci ((name, ci) :: m) h2]
      simp [alookup, hne]
    all_goals (simp only [labelMapGo]; exact ih _ _ h2)

-- The first pass binds a name declared at position `j` (with no later
-- declaration) to the running index plus the non-label count before
-- `j`.
theorem labelMapGo_lookup_decl {V : Type} (k : String) :
    ∀ (seq : List (IR V)) (ci : Nat) (m : List (String × Nat)) (j : Nat),
      seq[j]? = some (IR.Label k) →
      (∀ j2, j2 < seq.length → j < j2 → seq[j2]? ≠ some (IR.Label k)) →
      alookup k (labelMapGo seq ci m) = some (ci + countNonLabel (seq.take j)) := by
  intro seq
  induction seq with
  | nil => intro ci m j hj _; simp at hj
  | cons i rest ih =>
    intro ci m j hj hlater
    cases j with
    | zero =>
      rw [List.getElem?_cons_zero] at hj
      injection hj with hj
      subst hj
      have hnot : IR.Label k ∉ rest := by
        intro hmem
        obtain ⟨idx, hidx, hEq⟩ := List.getElem_of_mem hmem
        refine hlater (idx + 1) (by simp; omega) (Nat.succ_pos idx) ?_
        rw [List.getElem?_cons_succ, List.getElem?_eq_getElem hidx, hEq]
      simp only [labelMapGo]
      rw [labelMapGo_lookup_notmem k rest ci _ hnot]
      simp [alookup, countNonLabel]
    | succ j' =>
      rw [List.getElem?_cons_succ] at hj
      have hlater' : ∀ j2, j2 < rest.length → j' < j2 →
          rest[j2]? ≠ some (IR.Label k) := by
        intro j2 hl hgt
        have := hlater (j2 + 1) (by simp; omega) (Nat.succ_lt_succ hgt)
        simpa using this
      cases i
      case Label name =>
        simp only [labelMapGo]
        rw [ih ci ((name, ci) :: m) j' hj hlater']
        simp [List.take_succ_cons, countNonLabel, List.filter_cons, isLabel]
      all_goals
        (simp only [labelMapGo]
         rw [ih (ci + 1) m j' hj hlater']
         simp [List.take_succ_cons, countNonLabel, List.filter_cons, isLabel]
         try omega)

-- `resolveOne` drops exactly the label declarations.
theorem resolveOne_none_isLabel {V : Type} (m : List (String × Nat)) (i : IR V)
    (h : resolveOne m i = .ok none) : isLabel i = true := by
  cases i
  case Label name => rfl
  all_goals
    first
      | (exfalso; simp [resolveOne] at h; done)
      | (exfalso; rw [resolveOne] at h; split at h <;> simp_all)

-- `resolveOne` keeps exactly the non-label instructions.
theorem resolveOne_some_not_label {V : Type} (m : List (String × Nat)) (i : IR V)
    (si : StackInstruction V) (h : resolveOne m i = .ok (some si)) :
    isLabel i = false := by
  cases i
  case Label name => exact absurd h (by simp [resolveOne])
  all_goals rfl

-- A successful second pass produces exactly one output instruction per
-- non-label input entry.
theorem resolveGo_ok_length {V : Type} (m : List (String × Nat)) :
    ∀ (seq : List (IR V)) (out : List (StackInstruction V)),
      resolveGo m seq = .ok out → out.length = countNonLabel seq := by
  intro seq
  induction seq with
  | nil =>
    intro out h
    rw [resolveGo] at h
    injection h with h
    subst h
    simp [countNonLabel]
  | cons i rest ih =>
    intro out h
    rw [resolveGo] at h
    split at h
    · exact Except.noConfusion h
    · rename_i hro
      rw [countNonLabel_cons_isLabel _ (resolveOne_none_isLabel m i hro)]
      exact ih out h
    · rename_i si hro
      split at h
      · exact Except.noConfusion h
      · rename_i out' hrg
        injection h with h
        subst h
        rw [countNonLabel_cons_of_not _ (resolveOne_some_not_label m i si hro)]
        simp [ih out' hrg]

-- The output slot of the non-label entry at position `j` is its
-- resolved instruction, at index "non-label count before `j`".
theorem resolveGo_pos {V : Type} (m : List (String × Nat)) :
    ∀ (seq : List (IR V)) (out : List (StackInstruction V)) (j : Nat) (i : IR V),
      resolveGo m seq = .ok out → seq[j]? = some i → isLabel i = false →
      ∃ si, resolveOne m i = .ok (some si) ∧
        out[countNonLabel (seq.take j)]? = some si := by
  intro seq
  induction seq with
  | nil => intro out j i _ hj _; simp at hj
  | cons i0 rest ih =>
    intro out j i h hj hnl
    rw [resolveGo] at h
    split at h
    · exact Except.noConfusion h
    · rename_i hro
      cases j with
      | zero =>
        rw [List.getElem?_cons_zero] at hj
        injection hj with hj
        subst hj
        exact absurd (resolveOne_none_isLabel m i0 hro) (by simp [hnl])
      | succ j' =>
        rw [List.getElem?_cons_succ] at hj
        obtain ⟨si, h1, h2⟩ := ih out j' i h hj hnl
        refine ⟨si, h1, ?_⟩
        rw [List.take_succ_cons,
          countNonLabel_cons_isLabel _ (resolveOne_none_isLabel m i0 hro)]
        exact h2
    · rename_i si0 hro
      split at h
      · exact Except.noConfusion h
      · rename_i out' hrg
        injection h with h
        subst h
        cases j with
        | zero =>
          rw [List.getElem?_cons_zero] at hj
          injection hj with hj
          subst hj
          refine ⟨si0, hro, ?_⟩
          simp [countNonLabel]
        | succ j' =>
          rw [List.getElem?_cons_succ] at hj
          obtain ⟨si, h1, h2⟩ := ih out' j' i hrg hj hnl
          refine ⟨si, h1, ?_⟩
          rw [List.take_succ_cons,
            countNonLabel_cons_of_not _ (resolveOne_some_not_label m i0 si0 hro)]
          simpa using h2

/-- Claim C3: (a) the label map binds a name declared at position `j`
(with no later declaration of the same name) to the number of
non-label instructions before `j`; (b) on success the output has
exactly one instruction per non-label entry, so all label declarations
are dropped; (c)/(d) a `Jump`/`Call` to a label, wherever it sits
relative to the declaration, is rewritten to the absolute index stored
in the completed first-pass map — forward and backward references
resolve through the same map entry. -/
theorem c3_label_resolution :
    (∀ (V : Type) (seq : List (IR V)) (j : Nat) (name : String),
        seq[j]? = some (IR.Label name) →
        (∀ j2, j2 < seq.length → j < j2 → seq[j2]? ≠ some (IR.Label name)) →
        alookup name (labelMap seq) = some (countNonLabel (seq.take j)))
    ∧ (∀ (V : Type) (seq : List (IR V)) (out : List (StackInstruction V)),
        assembleLowered seq = .ok out → out.length = countNonLabel seq)
    ∧ (∀ (V : Type) (seq : List (IR V)) (out : List (StackInstruction V))
        (j : Nat) (lbl : String),
        assembleLowered seq = .ok out → seq[j]? = some (IR.Jump lbl) →
        ∃ t, alookup lbl (labelMap seq) = some t ∧
          out[countNonLabel (seq.take j)]? = some (StackInstruction.Jump t))
    ∧ (∀ (V : Type) (seq : List (IR V)) (out : List (StackInstruction V))
        (j : Nat) (lbl : String),
        assembleLowered seq = .ok out → seq[j]? = some (IR.Call lbl) →
        ∃ t, alookup lbl (labelMap seq) = some t ∧
          out[countNonLabel (seq.take j)]? = some (StackInstruction.Call t)) := by
  refine ⟨?_, ?_, ?_, ?_⟩
  · intro V seq j name hj hlater
    have := labelMapGo_lookup_decl name seq 0 [] j hj hlater
    simpa [labelMap] using this
  · intro V seq out h
    exact resolveGo_ok_length _ seq out h
  · intro V seq out j lbl h hj
    obtain ⟨si, h1, h2⟩ := resolveGo_pos (labelMap seq) seq out j _ h hj rfl
    rw [resolveOne] at h1
    cases halk : alookup lbl (labelMap seq) with
    | none => rw [halk] at h1; exact Except.noConfusion h1
    | some t =>
      rw [halk] at h1
      injection h1 with h1
      injection h1 with h1
      subst h1
      exact ⟨t, rfl, h2⟩
  · intro V seq out j lbl h hj
    obtain ⟨si, h1, h2⟩ := resolveGo_pos (labelMap seq) seq out j _ h hj rfl
    rw [resolveOne] at h1
    cases halk : alookup lbl (labelMap seq) with
    | none => rw [halk] at h1; exact Except.noConfusion h1
    | some t =>
      rw [halk] at h1
      injection h1 with h1
      injection h1 with h1
      subst h1
      exact ⟨t, rfl, h2⟩

/-- Claim C3, witness: the forward reference `CALL func; HALT;
LABEL func; PUSH 42; RETURN` — the label declared at position 2
resolves to index 2, the count of non-label instructions before it. -/
theorem c3_witness :
    alookup "f" (labelMap ([IR.Call "f", IR.Halt, IR.Label "f", IR.Push 42,
        IR.Return] : List (IR Int))) =
      some (countNonLabel (([IR.Call "f", IR.Halt, IR.Label "f", IR.Push 42,
        IR.Return] : List (IR Int)).take 2)) :=
  c3_label_resolution.1 Int _ 2 "f" rfl (by decide)

/-! ## Theorems: register VM -/

-- `set_register` only touches the register file.
theorem set_register_fields {V : Type} (s : VM V) (index : Nat) (value : V) :
    (set_register s index value).1.pc = s.pc ∧
    (set_register s index value).1.program = s.program ∧
    (set_register s index value).1.call_stack = s.call_stack := by
  rw [set_register]
  split <;> simp

-- `binopR` only touches the register file.
theorem binopR_fields {V : Type} (op : V → V → V) (s : VM V) (dest src1 src2 : Nat) :
    (binopR op s dest src1 src2).1.pc = s.pc ∧
    (binopR op s dest src1 src2).1.program = s.program ∧
    (binopR op s dest src1 src2).1.call_stack = s.call_stack := by
  rw [binopR]
  cases get_register s src1 with
  | error e => simp
  | ok v1 =>
    cases get_register s src2 with
    | error e => simp
    | ok v2 => exact set_register_fields s dest (op v1 v2)

-- States that agree on pc, program and call stack share the safety
-- invariant.
theorem goodState_of_fields {V : Type} {s t : VM V} (h : goodState s)
    (hpc : t.pc = s.pc) (hpr : t.program = s.program)
    (hcs : t.call_stack = s.call_stack) : goodState t := by
  obtain ⟨h1, h2⟩ := h
  constructor
  · rw [hpc, hpr]; exact h1
  · intro f hf
    rw [hpr]
    exact h2 f (hcs ▸ hf)

-- One executed instruction preserves the safety invariant and never
-- changes the program, whether it succeeds or fails.
theorem exec_preserves {V : Type} (cap : NumCap V) (instr : Instruction V)
    (s : VM V) (hs : goodState s) :
    goodState (execute_instruction cap instr s).1 ∧
      (execute_instruction cap instr s).1.program = s.program := by
  cases instr with
  | LoadImm dest value =>
    obtain ⟨f1, f2, f3⟩ := set_register_fields s dest value
    exact ⟨goodState_of_fields hs f1 f2 f3, f2⟩
  | Add dest src1 src2 =>
    obtain ⟨f1, f2, f3⟩ := binopR_fields cap.add s dest src1 src2
    exact ⟨goodState_of_fields hs f1 f2 f3, f2⟩
  | Sub dest src1 src2 =>
    obtain ⟨f1, f2, f3⟩ := binopR_fields cap.sub s dest src1 src2
    exact ⟨goodState_of_fields hs f1 f2 f3, f2⟩
  | Mul dest src1 src2 =>
    obtain ⟨f1, f2, f3⟩ := binopR_fields cap.mul s dest src1 src2
    exact ⟨goodState_of_fields hs f1 f2 f3, f2⟩
  | Div dest src1 src2 =>
    obtain ⟨f1, f2, f3⟩ := binopR_fields cap.div s dest src1 src2
    exact ⟨goodState_of_fields hs f1 f2 f3, f2⟩
  | Equal dest src1 src2 =>
    obtain ⟨f1, f2, f3⟩ := binopR_fields
      (fun v1 v2 => if cap.beq v1 v2 then cap.fromInt 1 else cap.fromInt 0)
      s dest src1 src2
    exact ⟨goodState_of_fields hs f1 f2 f3, f2⟩
  | LessThan dest src1 src2 =>
    obtain ⟨f1, f2, f3⟩ := binopR_fields
      (fun v1 v2 => if cap.blt v1 v2 then cap.fromInt 1 else cap.fromInt 0)
      s dest src1 src2
    exact ⟨goodState_of_fields hs f1 f2 f3, f2⟩
  | GreaterThan dest src1 src2 =>
    obtain ⟨f1, f2, f3⟩ := binopR_fields
      (fun v1 v2 => if cap.bgt v1 v2 then cap.fromInt 1 else cap.fromInt 0)
      s dest src1 src2
    exact ⟨goodState_of_fields hs f1 f2 f3, f2⟩
  | Print src =>
    rw [execute_instruction]
    cases get_register s src with
    | error e => exact ⟨hs, rfl⟩
    | ok v => exact ⟨hs, rfl⟩
  | Jump addr =>
    rw [execute_instruction, jump]
    split
    · exact ⟨hs, rfl⟩
    · rename_i hlt
      refine ⟨⟨by simp; omega, ?_⟩, rfl⟩
      intro f hf
      exact hs.2 f hf
  | Call addr =>
    rw [execute_instruction, call]
    split
    · exact ⟨hs, rfl⟩
    · rename_i hlt
      refine ⟨⟨by simp; omega, ?_⟩, rfl⟩
      intro f hf
      rcases List.mem_cons.1 hf with rfl | hf
      · exact hs.1
      · exact hs.2 f hf
  | Return =>
    rw [execute_instruction, ret]
    cases hcs : s.call_stack with
    | nil => exact ⟨hs, rfl⟩
    | cons f rest =>
      refine ⟨⟨?_, ?_⟩, rfl⟩
      · simp only []
        exact hs.2 f (by rw [hcs]; exact List.mem_cons_self f rest)
      · intro g hg
        simp only [] at hg
        exact hs.2 g (by rw [hcs]; exact List.mem_cons_of_mem f hg)
  | Store src var =>
    rw [execute_instruction]
    cases get_register s src with
    | error e => exact ⟨hs, rfl⟩
    | ok v => exact ⟨goodState_of_fields hs rfl rfl rfl, rfl⟩
  | Load dest var =>
    rw [execute_instruction]
    cases alookup var s.vars with
    | none => exact ⟨hs, rfl⟩
    | some v =>
      obtain ⟨f1, f2, f3⟩ := set_register_fields s dest v
      exact ⟨goodState_of_fields hs f1 f2 f3, f2⟩
  | Not dest src =>
    rw [execute_instruction]
    cases get_register s src with
    | error e => exact ⟨hs, rfl⟩
    | ok v =>
      obtain ⟨f1, f2, f3⟩ := set_register_fields s dest
        (if cap.beq v (cap.fromInt 0) then cap.fromInt 1 else cap.fromInt 0)
      exact ⟨goodState_of_fields hs f1 f2 f3, f2⟩
  | ConditionalJump cond target =>
    rw [execute_instruction]
    cases get_register s cond with
    | error e => exact ⟨hs, rfl⟩
    | ok v =>
      show goodState (if cap.beq v (cap.fromInt 0) = true then jump s target
          else (s, none)).1 ∧
        (if cap.beq v (cap.fromInt 0) = true then jump s target
          else (s, none)).1.program = s.program
      split
      · unfold jump
        split
        · exact ⟨hs, rfl⟩
        · rename_i hlt
          refine ⟨⟨by simp; omega, ?_⟩, rfl⟩
          intro f hf
          exact hs.2 f hf
      · exact ⟨hs, rfl⟩
  | Halt =>
    rw [execute_instruction]
    refine ⟨⟨by simp, ?_⟩, rfl⟩
    intro f hf
    exact hs.2 f hf

-- Incrementing a strictly in-range pc keeps the invariant.
theorem goodState_fetch {V : Type} {s : VM V} (hs : goodState s)
    (h : s.pc < s.program.length) : goodState { s with pc := s.pc + 1 } := by
  refine ⟨by simp; omega, ?_⟩
  intro f hf
  exact hs.2 f hf

-- A run that terminates normally ends with the pc exactly at the
-- program length.
theorem runFuel_ok_pc {V : Type} (cap : NumCap V) :
    ∀ (fuel : Nat) (s t : VM V), goodState s → runFuel cap fuel s = .ok t →
      t.pc = t.program.length := by
  intro fuel
  induction fuel with
  | zero =>
    intro s t hs h
    rw [runFuel] at h
    split at h
    · exact RunResult.noConfusion h
    · injection h with h
      subst h
      rename_i hge
      have := hs.1
      omega
  | succ fuel ih =>
    intro s t hs h
    rw [runFuel] at h
    split at h
    · rename_i hlt
      rcases hex : execute_instruction cap (s.program[s.pc]) { s with pc := s.pc + 1 }
        with ⟨s2, oe⟩
      rw [hex] at h
      have hs1 := goodState_fetch hs hlt
      have hpres := exec_preserves cap (s.program[s.pc]) { s with pc := s.pc + 1 } hs1
      rw [hex] at hpres
      cases oe with
      | none => exact ih s2 t hpres.1 h
      | some e => exact RunResult.noConfusion h
    · injection h with h
      subst h
      rename_i hge
      have := hs.1
      omega

/-- Claim C10: the invariant "pc ≤ program length and every stored
return address ≤ program length" holds of a fresh VM and is preserved
by every executed instruction (which also never changes the program);
in particular a `Return` that finds a frame sets the pc to that
frame's in-range return address without any bounds check, and a run
that terminates normally ends with pc equal to the program length. -/
theorem c10_pc_invariant :
    (∀ (V : Type) (cap : NumCap V) (instr : Instruction V) (s : VM V),
        goodState s → goodState (execute_instruction cap instr s).1 ∧
          (execute_instruction cap instr s).1.program = s.program)
    ∧ (∀ (V : Type) (cap : NumCap V) (program : List (Instruction V)) (n : Nat),
        goodState (VM.new cap program n))
    ∧ (∀ (V : Type) (s : VM V) (f : Frame) (rest : List Frame),
        goodState s → s.call_stack = f :: rest →
        ret s = ({ s with pc := f.return_address, call_stack := rest }, none) ∧
          f.return_address ≤ s.program.length)
    ∧ (∀ (V : Type) (cap : NumCap V) (fuel : Nat) (s t : VM V),
        goodState s → runFuel cap fuel s = .ok t → t.pc = t.program.length) := by
  refine ⟨?_, ?_, ?_, ?_⟩
  · intro V cap instr s hs
    exact exec_preserves cap instr s hs
  · intro V cap program n
    refine ⟨by simp [VM.new], ?_⟩
    intro f hf
    simp [VM.new] at hf
  · intro V s f rest hs hcs
    constructor
    · rw [ret, hcs]
    · exact hs.2 f (by rw [hcs]; exact List.mem_cons_self f rest)
  · intro V cap fuel s t hs h
    exact runFuel_ok_pc cap fuel s t hs h

/-- Claim C10, witness: a fresh one-instruction `HALT` program run to
completion ends with pc equal to the program length. -/
theorem c10_witness :
    ∃ t : VM Int, runFuel intCap 2 (VM.new intCap [Instruction.Halt] 1) = .ok t ∧
      t.pc = t.program.length := by
  refine ⟨_, rfl, ?_⟩
  exact c10_pc_invariant.2.2.2 Int intCap 2 (VM.new intCap [Instruction.Halt] 1) _
    ⟨by simp [VM.new], by simp [VM.new]⟩ rfl

/-- Claim C2: executing `ConditionalJump cond target` jumps exactly
when the tested register compares equal to the capability's zero
(`T::from(0)`); on a non-zero value the state — in particular the
already-incremented fall-through pc the dispatch loop passed in — is
left unchanged. -/
theorem c2_conditional_jump {V : Type} (cap : NumCap V) (s : VM V)
    (cond target : Nat) (v : V) (hv : get_register s cond = .ok v) :
    (cap.beq v (cap.fromInt 0) = false →
        execute_instruction cap (.ConditionalJump cond target) s = (s, none))
    ∧ (cap.beq v (cap.fromInt 0) = true → target < s.program.length →
        execute_instruction cap (.ConditionalJump cond target) s =
          ({ s with pc := target }, none)) := by
  constructor
  · intro hne
    simp [execute_instruction, hv, hne]
  · intro heq hlt
    have hnle : ¬ s.program.length ≤ target := by omega
    simp [execute_instruction, hv, heq, jump, hnle]

/-- Claim C2, witness: register 0 holds zero, so the conditional jump
to target 0 (< program length 2) is taken. -/
theorem c2_witness :
    execute_instruction intCap (Instruction.ConditionalJump 0 0)
        { pc := 1, registers := [(0 : Int)],
          program := [Instruction.Halt, Instruction.Halt],
          call_stack := [], vars := [] } =
      ({ pc := 0, registers := [(0 : Int)],
          program := [Instruction.Halt, Instruction.Halt],
          call_stack := [], vars := [] }, none) :=
  (c2_conditional_jump intCap
    { pc := 1, registers := [(0 : Int)],
      program := [Instruction.Halt, Instruction.Halt],
      call_stack := [], vars := [] } 0 0 0 rfl).2 rfl (by decide)

/-- Claim C4: a `Call` whose target is in range pushes a frame holding
the current (already incremented) pc and then jumps — at dispatch-loop
level, the pushed return address is `s.pc + 1`, the instruction after
the call; `Return` fails with `CallStackEmpty` exactly when the call
stack is empty, and otherwise pops the top frame into the pc. -/
theorem c4_call_return {V : Type} (cap : NumCap V) (s : VM V) (addr : Nat) :
    (addr < s.program.length →
        execute_instruction cap (.Call addr) s =
          ({ s with call_stack := ⟨s.pc⟩ :: s.call_stack, pc := addr }, none))
    ∧ (s.call_stack = [] →
        execute_instruction cap (.Return : Instruction V) s =
          (s, some .CallStackEmpty))
    ∧ (∀ (f : Frame) (rest : List Frame), s.call_stack = f :: rest →
        execute_instruction cap (.Return : Instruction V) s =
          ({ s with pc := f.return_address, call_stack := rest }, none))
    ∧ (∀ fuel : Nat, s.pc < s.program.length →
        s.program[s.pc]? = some (.Call addr) → addr < s.program.length →
        runFuel cap (fuel + 1) s =
          runFuel cap fuel
            ({ s with call_stack := ⟨s.pc + 1⟩ :: s.call_stack, pc := addr })) := by
  refine ⟨?_, ?_, ?_, ?_⟩
  · intro hlt
    have hnle : ¬ s.program.length ≤ addr := by omega
    simp [execute_instruction, call, hnle]
  · intro hcs
    simp [execute_instruction, ret, hcs]
  · intro f rest hcs
    simp [execute_instruction, ret, hcs]
  · intro fuel hpc hinstr hlt
    rw [runFuel, dif_pos hpc]
    have hget : s.program[s.pc] = Instruction.Call addr := by
      have h0 : s.program[s.pc]? = some (s.program[s.pc]) :=
        List.getElem?_eq_getElem hpc
      rw [h0] at hinstr
      exact Option.some.inj hinstr
    rw [hget]
    have hexec : execute_instruction cap (Instruction.Call addr)
        { s with pc := s.pc + 1 } =
        ({ s with call_stack := ⟨s.pc + 1⟩ :: s.call_stack, pc := addr }, none) := by
      have hnle : ¬ ({ s with pc := s.pc + 1 } : VM V).program.length ≤ addr := by
        simp; omega
      simp [execute_instruction, call, hnle]
    rw [hexec]

/-- Claim C4, witness: calling target 1 from post-increment pc 1
pushes the frame ⟨1⟩ and jumps. -/
theorem c4_witness :
    execute_instruction intCap (Instruction.Call 1)
        { pc := 1, registers := ([] : List Int),
          program := [Instruction.Call 1, Instruction.Halt],
          call_stack := [], vars := [] } =
      ({ pc := 1, registers := ([] : List Int),
          program := [Instruction.Call 1, Instruction.Halt],
          call_stack := [⟨1⟩], vars := [] }, none) :=
  (c4_call_return intCap
    { pc := 1, registers := ([] : List Int),
      program := [Instruction.Call 1, Instruction.Halt],
      call_stack := [], vars := [] } 1).1 (by decide)

/-- Claim C5: a `Jump`, `Call` or taken `ConditionalJump` whose target
is ≥ the program length fails with `ProgramCounterOutOfBounds` leaving
the state (pc and call stack included) exactly as it was, because the
bounds check precedes every mutation; an in-range target never raises
this error. -/
theorem c5_pc_bounds {V : Type} (cap : NumCap V) (s : VM V)
    (addr cond target : Nat) (v : V) :
    (s.program.length ≤ addr →
        execute_instruction cap (.Jump addr) s =
          (s, some .ProgramCounterOutOfBounds)
        ∧ execute_instruction cap (.Call addr) s =
          (s, some .ProgramCounterOutOfBounds))
    ∧ (get_register s cond = .ok v → cap.beq v (cap.fromInt 0) = true →
        s.program.length ≤ target →
        execute_instruction cap (.ConditionalJump cond target) s =
          (s, some .ProgramCounterOutOfBounds))
    ∧ (addr < s.program.length →
        (execute_instruction cap (.Jump addr) s).2 = none ∧
        (execute_instruction cap (.Call addr) s).2 = none)
    ∧ (get_register s cond = .ok v → target < s.program.length →
        (execute_instruction cap (.ConditionalJump cond target) s).2 ≠
          some VmError.ProgramCounterOutOfBounds) := by
  refine ⟨?_, ?_, ?_, ?_⟩
  · intro hge
    constructor
    · simp [execute_instruction, jump, hge]
    · simp [execute_instruction, call, hge]
  · intro hv hbeq hge
    simp [execute_instruction, hv, hbeq, jump, hge]
  · intro hlt
    have hnle : ¬ s.program.length ≤ addr := by omega
    constructor
    · simp [execute_instruction, jump, hnle]
    · simp [execute_instruction, call, hnle]
  · intro hv hlt
    have hnle : ¬ s.program.length ≤ target := by omega
    cases hbeq : cap.beq v (cap.fromInt 0) with
    | false => simp [execute_instruction, hv, hbeq]
    | true => simp [execute_instruction, hv, hbeq, jump, hnle]

/-- Claim C5, witness: jumping to 5 in a one-instruction program fails
with `ProgramCounterOutOfBounds` and leaves the state unchanged. -/
theorem c5_witness :
    execute_instruction intCap (Instruction.Jump 5)
        { pc := 1, registers := [(0 : Int)], program := [Instruction.Halt],
          call_stack := [], vars := [] } =
      ({ pc := 1, registers := [(0 : Int)], program := [Instruction.Halt],
          call_stack := [], vars := [] },
        some VmError.ProgramCounterOutOfBounds) :=
  ((c5_pc_bounds intCap
    { pc := 1, registers := [(0 : Int)], program := [Instruction.Halt],
      call_stack := [], vars := [] } 5 0 5 0).1 (by decide)).1

/-- Claim C6 (amended): loading an absent variable fails — but the
error is the `RegisterOutOfBounds` variant carrying the message
`variable '<name>' not found`, because `enum VmError` has no separate
`VariableNotFound` condition (its only conditions are
`RegisterOutOfBounds`, `ProgramCounterOutOfBounds` and
`CallStackEmpty`); loading a stored variable writes its value to the
destination register. -/
theorem c6_load_variable {V : Type} (cap : NumCap V) (s : VM V) (dest : Nat)
    (var : String) :
    (alookup var s.vars = none →
        execute_instruction cap (.Load dest var) s =
          (s, some (.RegisterOutOfBounds ("variable '" ++ var ++ "' not found"))))
    ∧ (∀ v : V, alookup var s.vars = some v → dest < s.registers.length →
        execute_instruction cap (.Load dest var) s =
          ({ s with registers := s.registers.set dest v }, none))
    ∧ (∀ e : VmError, (∃ msg, e = .RegisterOutOfBounds msg) ∨
        e = .ProgramCounterOutOfBounds ∨ e = .CallStackEmpty) := by
  refine ⟨?_, ?_, ?_⟩
  · intro hnone
    simp [execute_instruction, hnone]
  · intro v hsome hdest
    simp [execute_instruction, hsome, set_register, hdest]
  · intro e
    cases e with
    | RegisterOutOfBounds msg => exact Or.inl ⟨msg, rfl⟩
    | ProgramCounterOutOfBounds => exact Or.inr (Or.inl rfl)
    | CallStackEmpty => exact Or.inr (Or.inr rfl)

/-- Claim C6, counterexample to the claim as stated: loading the
undeclared variable "x" fails, but the reported condition is the
`RegisterOutOfBounds` variant (message "variable 'x' not found"), not
a `VariableNotFound` condition — no such variant exists in
`enum VmError`. -/
theorem c6_counterexample :
    execute_instruction intCap (Instruction.Load 0 "x")
        { pc := 0, registers := [(0 : Int)], program := [], call_stack := [],
          vars := [] } =
      ({ pc := 0, registers := [(0 : Int)], program := [], call_stack := [],
          vars := [] },
        some (VmError.RegisterOutOfBounds "variable 'x' not found")) := rfl

/-- Claim C6, witness: loading the stored variable "y" succeeds and
writes its value to register 0. -/
theorem c6_witness :
    execute_instruction intCap (Instruction.Load 0 "y")
        { pc := 0, registers := [(0 : Int)], program := [], call_stack := [],
          vars := [("y", 7)] } =
      ({ pc := 0, registers := [(7 : Int)], program := [], call_stack := [],
          vars := [("y", 7)] }, none) :=
  (c6_load_variable intCap
    { pc := 0, registers := [(0 : Int)], program := [], call_stack := [],
      vars := [("y", 7)] } 0 "y").2.1 7 rfl (by decide)

end Zyde
